import Mathlib

/-!
Verification of the libotp OTP validation engine
(src/daemons/ipa-slapi-plugins/libotp/libotp.c).

The C code is shallowly embedded: machine integers are modelled as
`Nat`/`Int`, with the C conversions made explicit exactly where they are
observable in the source:

* `u64 z` is the value of `(uint64_t) z` for a signed 64-bit `z`
  (used by the implicit usual-arithmetic conversion in the watermark
  comparison `step < token->totp.watermark`, and by the stores into the
  `uint64_t` fields `watermark`/`counter`);
* `toInt32 z` is the value of `(int) z` under two's complement
  (used at the `writeattr(..., int value)` call boundary, where the
  callers pass a `ssize_t` step or a `uint32_t` clock offset);
* the `uint32_t` accumulator of `bvtod` and the `uint32_t tmp` holding
  the recomputed clock offset reduce modulo `2^32`.

The 64-bit two's-complement wrap of the `ssize_t`/`uint64_t` step
accumulator itself (reachable only for counters/watermarks beyond
`2^63`) is not modelled; the `uint64_t` fields are plain `Nat`.

The external code generator `hotp()` (librfc, out of scope per the spec)
is abstracted as a per-token function `gen : Int → Option Nat` of the
step value the validator passes (`none` models a failing `hotp()` call).
The LDAP store is modelled as a map from entry identity (`sdn`) to a
record of the three mutable integer attributes, together with an
environment `Env` that decides whether the n-th write issued during a
request succeeds (`writeattr`'s failure modes).
-/

namespace LibOtp

/-- Value of `(uint64_t) z` for a (signed, 64-bit) integer `z`. -/
def u64 (z : Int) : Nat := (z % (2 ^ 64 : Int)).toNat

/-- Value of `(int) z` under two's complement: reduce modulo `2^32` into
`[-2^31, 2^31)`.  This composes the C conversions `uint32_t` → `int` and
`ssize_t` → `int` used at the `writeattr` call boundary. -/
def toInt32 (z : Int) : Int := (z + 2 ^ 31) % 2 ^ 32 - 2 ^ 31

/-- Mutable TOTP state (the `totp` arm of the union in `struct otptoken`):
`watermark : uint64_t`, `step : unsigned int`, `offset : int`. -/
structure TotpState where
  watermark : Nat
  step : Nat
  offset : Int
  deriving Repr, DecidableEq

/-- Mutable HOTP state (the `hotp` arm of the union): `counter : uint64_t`. -/
structure HotpState where
  counter : Nat
  deriving Repr, DecidableEq

/-- `enum otptoken_type` fused with the per-type union payload, as the spec's
sum type.  `invalid` is `OTPTOKEN_NONE` (the `default:` arms of the code). -/
inductive TokenKind where
  | totp (t : TotpState)
  | hotp (h : HotpState)
  | invalid
  deriving Repr, DecidableEq

/-- In-memory token (`struct otptoken`): identity (`sdn`), code length
(`token.digits`), the abstracted code generator closed over the secret and
algorithm, and the typed mutable state. -/
structure OtpToken where
  sdn : Nat
  digits : Nat
  gen : Int → Option Nat
  kind : TokenKind

/-- The three LDAP attributes `validate` can write. -/
inductive Attr where
  | totpWatermark
  | totpClockOffset
  | hotpCounter
  deriving Repr, DecidableEq

/-- LDAP attribute names produced by the `T(...)`/`H(...)` macros. -/
def attrName : Attr → String
  | .totpWatermark => "ipaTokenTOTPwatermark"
  | .totpClockOffset => "ipaTokenTOTPclockOffset"
  | .hotpCounter => "ipaTokenHOTPcounter"

/-- Durable per-entry attribute values (integers, as stored via
`slapi_value_set_int`). -/
structure Rec where
  watermark : Int
  clockOffset : Int
  counter : Int
  deriving Repr, DecidableEq

/-- Replace-semantics attribute write on one entry (`LDAP_MOD_REPLACE`). -/
def Rec.writeA (r : Rec) : Attr → Int → Rec
  | .totpWatermark, v => { r with watermark := v }
  | .totpClockOffset, v => { r with clockOffset := v }
  | .hotpCounter, v => { r with counter := v }

/-- The external store: entry identity ↦ durable attribute record. -/
def Store : Type := Nat → Rec

/-- Environment: whether the n-th internal modify issued during the request
succeeds (transport/result failures of `writeattr`). -/
structure Env where
  ok : Nat → Bool

/-- Durable state threaded through a request: the store plus the count of
writes attempted so far (the index into `Env.ok`). -/
structure WState where
  store : Store
  n : Nat

/-- `writeattr`: one internal modify, replace semantics.  On success the
entry's attribute is replaced; on any failure nothing durable changes.
Either way the attempt is consumed. -/
def writeattr (env : Env) (sdn : Nat) (st : WState) (a : Attr) (v : Int) :
    Bool × WState :=
  if env.ok st.n then
    (true, ⟨fun x => if x = sdn then (st.store sdn).writeA a v else st.store x,
            st.n + 1⟩)
  else
    (false, ⟨st.store, st.n + 1⟩)

/-- Result of `validate`: the boolean outcome, the (possibly advanced)
in-memory token, and the durable state. -/
structure VResult where
  ok : Bool
  token : OtpToken
  st : WState

/-- The final `switch` of `validate`: save the advanced step to the in-memory
cursor (`token->totp.watermark = step` / `token->hotp.counter = step`; the
`ssize_t` value is converted to `uint64_t`). -/
def OtpToken.setCursor (tok : OtpToken) (v : Nat) : OtpToken :=
  match tok.kind with
  | .totp t => { tok with kind := .totp { t with watermark := v } }
  | .hotp h => { tok with kind := .hotp { h with counter := v } }
  | .invalid => tok

/-- Tail of `validate` from `writeattr(token, attr, step)` on: write the step
value; on success save it to the in-memory cursor and succeed. -/
def commitStep (env : Env) (tok : OtpToken) (st : WState) (attr : Attr)
    (stepv : Int) : VResult :=
  let w := writeattr env tok.sdn st attr (toInt32 stepv)
  if w.1 then ⟨true, tok.setCursor (u64 stepv), w.2⟩ else ⟨false, tok, w.2⟩

/-- Middle of `validate`, after the absolute step `s` and the attribute have
been determined: generate and compare the first code (`hotp(..., step++, ...)`),
optionally generate and compare the second code and (TOTP only) write the
recomputed clock offset `tmp = (step - now / totp.step) * totp.step` (a
`uint32_t`), then commit the advanced step. -/
def validateAt (env : Env) (tok : OtpToken) (now : Int) (s : Int) (attr : Attr)
    (first : Nat) (second : Option Nat) (st : WState) : VResult :=
  match tok.gen s with
  | Option.none => ⟨false, tok, st⟩
  | Option.some c1 =>
    if first ≠ c1 then ⟨false, tok, st⟩
    else
      match second with
      | Option.none => commitStep env tok st attr (s + 1)
      | Option.some c2 =>
        match tok.gen (s + 1) with
        | Option.none => ⟨false, tok, st⟩
        | Option.some g2 =>
          if c2 ≠ g2 then ⟨false, tok, st⟩
          else
            match tok.kind with
            | .totp t =>
              let tmpv : Nat :=
                ((((s + 2) - Int.tdiv now (t.step : Int)) * (t.step : Int)) %
                  (2 ^ 32 : Int)).toNat
              let w := writeattr env tok.sdn st .totpClockOffset (toInt32 tmpv)
              if w.1 then commitStep env tok w.2 attr (s + 2)
              else ⟨false, tok, w.2⟩
            | _ => commitStep env tok st attr (s + 2)

/-- `validate` (libotp.c:173): compute the absolute step from the per-type
baseline and the offset `delta`, apply the per-type guard, then run
`validateAt`.

* TOTP: `step = (now + offset) / totp.step + delta` (C signed division,
  truncation toward zero); the guard `watermark > 0 && step < watermark`
  compares the signed step with the `uint64_t` watermark, so the step is
  converted with `u64`.
* HOTP: a negative `delta` is rejected outright; `step = counter + delta`. -/
def validate (env : Env) (tok : OtpToken) (now : Int) (delta : Int)
    (first : Nat) (second : Option Nat) (st : WState) : VResult :=
  match tok.kind with
  | .totp t =>
    let s := Int.tdiv (now + t.offset) (t.step : Int) + delta
    if t.watermark > 0 ∧ u64 s < t.watermark then ⟨false, tok, st⟩
    else validateAt env tok now s .totpWatermark first second st
  | .hotp h =>
    if delta < 0 then ⟨false, tok, st⟩
    else validateAt env tok now ((h.counter : Int) + delta) .hotpCounter
      first second st
  | .invalid => ⟨false, tok, st⟩

/-- The absolute step `validate` derives from offset `delta` (before guards). -/
def stepOf (tok : OtpToken) (now : Int) (delta : Int) : Int :=
  match tok.kind with
  | .totp t => Int.tdiv (now + t.offset) (t.step : Int) + delta
  | .hotp h => (h.counter : Int) + delta
  | .invalid => 0

/-- Per-type baseline step `B` (the `delta = 0` candidate). -/
def baseline (tok : OtpToken) (now : Int) : Int := stepOf tok now 0

/-- In-memory replay cursor (TOTP watermark or HOTP counter). -/
def OtpToken.cursorNat (tok : OtpToken) : Nat :=
  match tok.kind with
  | .totp t => t.watermark
  | .hotp h => h.counter
  | .invalid => 0

/-- Durable replay-cursor attribute value for a token's type. -/
def cursorVal (tok : OtpToken) (r : Rec) : Int :=
  match tok.kind with
  | .totp _ => r.watermark
  | .hotp _ => r.counter
  | .invalid => 0

/-- The `for (i = 0; i <= steps; i++)` loop of `otptoken_validate`: at each
radius try offset `+i` then `-i`; return on the first success.  `fuel` is the
number of remaining iterations. -/
def validateStepLoop (env : Env) (now : Int) (code : Nat) :
    Nat → Nat → OtpToken → WState → VResult
  | 0, _, tok, st => ⟨false, tok, st⟩
  | fuel + 1, i, tok, st =>
    let r1 := validate env tok now (i : Int) code Option.none st
    if r1.ok then r1
    else
      let r2 := validate env r1.token now (-(i : Int)) code Option.none r1.st
      if r2.ok then r2
      else validateStepLoop env now code fuel (i + 1) r2.token r2.st

/-- `otptoken_validate` (libotp.c:473): single-code windowed validation. -/
def otptoken_validate (env : Env) (tok : OtpToken) (now : Int) (steps : Nat)
    (code : Nat) (st : WState) : VResult :=
  validateStepLoop env now code (steps + 1) 0 tok st

/-- Inner loop of `otptoken_sync`: one radius `i`, all candidate tokens in
order, `+i` then `-i` per token. -/
def syncTokLoop (env : Env) (now : Int) (c1 c2 : Nat) (i : Nat) :
    List OtpToken → WState → Bool × WState
  | [], st => (false, st)
  | t :: ts, st =>
    let r1 := validate env t now (i : Int) c1 (Option.some c2) st
    if r1.ok then (true, r1.st)
    else
      let r2 := validate env t now (-(i : Int)) c1 (Option.some c2) r1.st
      if r2.ok then (true, r2.st)
      else syncTokLoop env now c1 c2 i ts r2.st

/-- Outer loop of `otptoken_sync`: radii `0 .. steps`. -/
def syncStepLoop (env : Env) (now : Int) (c1 c2 : Nat) (toks : List OtpToken) :
    Nat → Nat → WState → Bool × WState
  | 0, _, st => (false, st)
  | fuel + 1, i, st =>
    let r := syncTokLoop env now c1 c2 i toks st
    if r.1 then r else syncStepLoop env now c1 c2 toks fuel (i + 1) r.2

/-- `otptoken_sync` (libotp.c:543): two-code synchronization across an
ordered candidate token list. -/
def otptoken_sync (env : Env) (toks : List OtpToken) (now : Int) (steps : Nat)
    (c1 c2 : Nat) (st : WState) : Bool × WState :=
  syncStepLoop env now c1 c2 toks (steps + 1) 0 st

/-- One step of `bvtod`'s accumulation: the `uint32_t` accumulator after
`*out *= 10; *out += c - '0'`. -/
def bvtodStep (a : Nat) (c : Char) : Nat := (a * 10 + (c.toNat - 48)) % 2 ^ 32

/-- The digit test of `bvtod` (`!(c < '0' || c > '9')`). -/
def isDig (c : Char) : Bool := decide ('0' ≤ c) && decide (c ≤ '9')

/-- Loop of `bvtod` (libotp.c:506): scan all characters, failing on the first
non-digit, accumulating into a `uint32_t`. -/
def bvtodGo : List Char → Nat → Option Nat
  | [], a => Option.some a
  | c :: cs, a =>
    if isDig c then bvtodGo cs (bvtodStep a c) else Option.none

/-- `bvtod`: all characters must be digits and the input must be non-empty
(`return code->bv_len != 0`). -/
def bvtod (cs : List Char) : Option Nat :=
  match bvtodGo cs 0 with
  | Option.none => Option.none
  | Option.some v => if cs = [] then Option.none else Option.some v

/-- `otptoken_validate_berval` (libotp.c:520): the input must be at least
`digits` long; with `tail` the trailing `digits` characters are taken,
otherwise `bv_len` is simply clamped to `digits` (the leading `digits`
characters); the window is decoded and validated. -/
def otptoken_validate_berval (env : Env) (tok : OtpToken) (now : Int)
    (steps : Nat) (code : List Char) (tail : Bool) (st : WState) : VResult :=
  if code.length < tok.digits then ⟨false, tok, st⟩
  else
    let w := if tail then code.drop (code.length - tok.digits)
             else code.take tok.digits
    match bvtod w with
    | Option.none => ⟨false, tok, st⟩
    | Option.some otp => otptoken_validate env tok now steps otp st

/-- `otptoken_sync_berval` (libotp.c:569): decode both codes (no length
handling at all) and synchronize. -/
def otptoken_sync_berval (env : Env) (toks : List OtpToken) (now : Int)
    (steps : Nat) (first second : List Char) (st : WState) : Bool × WState :=
  match bvtod first with
  | Option.none => (false, st)
  | Option.some f =>
    match bvtod second with
    | Option.none => (false, st)
    | Option.some s => otptoken_sync env toks now steps f s st

/-! ### Token construction (`otptoken_new`) and lookup (`find`) -/

/-- One raw store record as `otptoken_new` reads it.  `Int` attribute fields
follow `slapi_entry_attr_get_int`: an absent attribute reads as `0`;
`key`/`algorithm` distinguish absence (`charptr`/berval `NULL`). -/
structure RawEntry where
  objectClasses : List String
  sdn : Nat
  key : Option (List Nat)
  digits : Int
  algorithm : Option String
  clockOffset : Int
  watermark : Int
  timeStep : Nat
  counter : Int
  deriving Repr, DecidableEq

/-- ASCII lower-casing of a byte value (the C-locale `tolower` used by
`strcasecmp`). -/
def lowerNat (n : Nat) : Nat := if 65 ≤ n ∧ n ≤ 90 then n + 32 else n

/-- `strcasecmp(a, b) == 0`: byte-wise ASCII case-insensitive equality. -/
def strCaseEq (a b : String) : Bool :=
  a.data.map (fun c => lowerNat c.toNat) = b.data.map (fun c => lowerNat c.toNat)

/-- `is_algo_valid` (libotp.c:94): case-insensitive allow-list test. -/
def is_algo_valid (algo : String) : Bool :=
  strCaseEq algo "sha1" || strCaseEq algo "sha256" ||
  strCaseEq algo "sha384" || strCaseEq algo "sha512"

/-- The token type determined by the `objectClass` scan, without payload:
`0 = NONE`, `1 = TOTP`, `2 = HOTP` (on each value the TOTP marker is tested
first, a later match overwriting an earlier one). -/
def scanTypeTag (vs : List String) : Nat :=
  vs.foldl
    (fun acc v =>
      if strCaseEq v "ipaTokenTOTP" then 1
      else if strCaseEq v "ipaTokenHOTP" then 2
      else acc) 0

/-- `otptoken_new` (libotp.c:266), abstracting the code-generation primitive
as a factory `G` from the secret material (key bytes, algorithm, digits) to
the per-token generator.  Fails (returns `none`) exactly where the C code
`goto error`s: no recognized type marker, missing key, digits other than 6
or 8, unlisted algorithm. -/
def otptoken_new (G : List Nat → String → Int → Int → Option Nat)
    (e : RawEntry) : Option OtpToken :=
  let tag := scanTypeTag e.objectClasses
  if tag = 0 then Option.none
  else
    match e.key with
    | Option.none => Option.none
    | Option.some k =>
      if e.digits ≠ 6 ∧ e.digits ≠ 8 then Option.none
      else
        let algo := e.algorithm.getD "sha1"
        if ¬ is_algo_valid algo then Option.none
        else
          Option.some
            { sdn := e.sdn, digits := e.digits.toNat, gen := G k algo e.digits,
              kind :=
                if tag = 1 then
                  TokenKind.totp
                    { offset := e.clockOffset, watermark := u64 e.watermark,
                      step := if e.timeStep = 0 then 30 else e.timeStep }
                else TokenKind.hotp { counter := u64 e.counter } }

/-- The construction loop of `find` (libotp.c:415): build a token from every
entry in order; any single failure frees everything built so far and makes
the whole lookup fail (`tokens = NULL`). -/
def find (G : List Nat → String → Int → Int → Option Nat) :
    List RawEntry → Option (List OtpToken)
  | [] => Option.some []
  | e :: es =>
    match otptoken_new G e with
    | Option.none => Option.none
    | Option.some t =>
      match find G es with
      | Option.none => Option.none
      | Option.some ts => Option.some (t :: ts)

/-! ### Kind accessors (total projections used in theorem statements) -/

/-- The TOTP watermark, `0` for non-TOTP tokens. -/
def wmNat (tok : OtpToken) : Nat :=
  match tok.kind with
  | .totp t => t.watermark
  | _ => 0

/-- The TOTP step duration, `0` for non-TOTP tokens. -/
def stepSec (tok : OtpToken) : Nat :=
  match tok.kind with
  | .totp t => t.step
  | _ => 0

/-- Whether the token is time-based. -/
def isTotp (tok : OtpToken) : Bool :=
  match tok.kind with
  | .totp _ => true
  | _ => false

/-! ### Spec-side search enumerations (from the spec's words, §4.2/§4.5) -/

/-- Spec §4.2 candidate order: `+0, −0, +1, −1, …, +steps, −steps`. -/
def sweepList (steps : Nat) : List Int :=
  (List.range (steps + 1)).flatMap (fun i => [(i : Int), -(i : Int)])

/-- Spec §4.5 attempt order: radii outer, tokens inner (in the given order),
`+i` then `−i` per token. -/
def syncEnum (steps : Nat) (toks : List OtpToken) : List (OtpToken × Int) :=
  (List.range (steps + 1)).flatMap
    (fun i => toks.flatMap (fun t => [(t, (i : Int)), (t, -(i : Int))]))

/-- Spec-side decoded numeric value of a digit string: plain base-10 with
leading zeros significant. -/
def natVal (cs : List Char) : Nat :=
  cs.foldl (fun a c => a * 10 + (c.toNat - 48)) 0

/-- All characters are ASCII digits. -/
def allDig (cs : List Char) : Bool := cs.all isDig

/-! ### Concrete instances used by witnesses and counterexamples -/

/-- Environment in which every store write succeeds. -/
def envAll : Env := { ok := fun _ => true }

/-- Environment in which only the first store write succeeds. -/
def envFirst : Env := { ok := fun n => n == 0 }

/-- All-zero durable record. -/
def rec0 : Rec := { watermark := 0, clockOffset := 0, counter := 0 }

/-- Initial durable state: every entry all-zero, no writes attempted yet. -/
def st0 : WState := { store := fun _ => rec0, n := 0 }

/-- A concrete injective code generator. -/
def genId : Int → Option Nat := fun s => Option.some (s.natAbs * 7 + 1)

/-- Concrete TOTP token: watermark `0`, step `30`, offset `0`. -/
def tokTot : OtpToken :=
  { sdn := 0, digits := 6, gen := genId,
    kind := TokenKind.totp { watermark := 0, step := 30, offset := 0 } }

/-- Concrete HOTP token: counter `5`. -/
def tokHot : OtpToken :=
  { sdn := 1, digits := 6, gen := genId,
    kind := TokenKind.hotp { counter := 5 } }

/-- Concrete TOTP token with a raised watermark `5`, whose generator yields
`42` at step `-1` and `7` elsewhere. -/
def tokWm : OtpToken :=
  { sdn := 0, digits := 6,
    gen := fun s => Option.some (if s = (-1 : Int) then 42 else 7),
    kind := TokenKind.totp { watermark := 5, step := 30, offset := 0 } }

/-- Concrete HOTP token matching only step `0`, code `123456`. -/
def tokSix : OtpToken :=
  { sdn := 1, digits := 6,
    gen := fun s => Option.some (if s = (0 : Int) then 123456 else 0),
    kind := TokenKind.hotp { counter := 0 } }

/-- A raw entry that constructs a valid HOTP token. -/
def entGood : RawEntry :=
  { objectClasses := ["top", "ipatokenHOTP"], sdn := 3,
    key := Option.some [1, 2, 3], digits := 6,
    algorithm := Option.none, clockOffset := 0, watermark := 0,
    timeStep := 0, counter := 0 }

/-- A raw entry that fails construction (digits = 0, i.e. attribute absent). -/
def entBad : RawEntry :=
  { objectClasses := ["top", "ipatokenHOTP"], sdn := 4,
    key := Option.some [1, 2, 3], digits := 0,
    algorithm := Option.none, clockOffset := 0, watermark := 0,
    timeStep := 0, counter := 0 }

/-- A trivial generator factory for construction tests. -/
def genFac : List Nat → String → Int → Int → Option Nat :=
  fun _ _ _ s => Option.some s.natAbs

/-- The offset-`d` single-code candidate succeeds from state `st` (the
search predicate of the §4.2 sweep). -/
def vPred (env : Env) (tok : OtpToken) (now : Int) (code : Nat) (st : WState)
    (d : Int) : Bool :=
  (validate env tok now d code Option.none st).ok

/-- The (token, offset) two-code candidate succeeds from state `st` (the
search predicate of the §4.5 sweep). -/
def sPred (env : Env) (now : Int) (c1 c2 : Nat) (st : WState)
    (td : OtpToken × Int) : Bool :=
  (validate env td.1 now td.2 c1 (Option.some c2) st).ok

/-! ## Helper lemmas -/

theorem u64_eq_toNat (z : Int) (h0 : 0 ≤ z) (h1 : z < 2 ^ 64) :
    u64 z = z.toNat := by
  unfold u64
  rw [Int.emod_eq_of_lt h0 (by exact_mod_cast h1)]

theorem toInt32_eq_self (z : Int) (h0 : -2 ^ 31 ≤ z) (h1 : z < 2 ^ 31) :
    toInt32 z = z := by
  unfold toInt32
  omega

theorem toInt32_wrap32 (v : Int) :
    toInt32 ((v % (2 ^ 32 : Int)).toNat : Int) = toInt32 v := by
  unfold toInt32
  omega

theorem setCursor_sdn (tok : OtpToken) (v : Nat) :
    (tok.setCursor v).sdn = tok.sdn := by
  unfold OtpToken.setCursor
  cases tok.kind <;> rfl

theorem setCursor_gen (tok : OtpToken) (v : Nat) :
    (tok.setCursor v).gen = tok.gen := by
  unfold OtpToken.setCursor
  cases tok.kind <;> rfl

theorem writeattr_store_other (env : Env) (sdn : Nat) (st : WState) (a : Attr)
    (v : Int) (x : Nat) (hx : x ≠ sdn) :
    ((writeattr env sdn st a v).2).store x = st.store x := by
  unfold writeattr
  split <;> simp [hx]

theorem commitStep_store_other (env : Env) (tok : OtpToken) (st : WState)
    (attr : Attr) (v : Int) (x : Nat) (hx : x ≠ tok.sdn) :
    ((commitStep env tok st attr v).st).store x = st.store x := by
  unfold commitStep
  dsimp only
  split <;> exact writeattr_store_other env tok.sdn st attr _ x hx

theorem validateAt_store_other (env : Env) (tok : OtpToken) (now s : Int)
    (attr : Attr) (f : Nat) (sc : Option Nat) (st : WState) (x : Nat)
    (hx : x ≠ tok.sdn) :
    ((validateAt env tok now s attr f sc st).st).store x = st.store x := by
  unfold validateAt
  dsimp only
  split
  · rfl
  · split
    · rfl
    · split
      · exact commitStep_store_other env tok st attr _ x hx
      · split
        · rfl
        · split
          · rfl
          · split
            · split
              · rw [commitStep_store_other env tok _ attr _ x hx]
                exact writeattr_store_other env tok.sdn st _ _ x hx
              · exact writeattr_store_other env tok.sdn st _ _ x hx
            · exact commitStep_store_other env tok st attr _ x hx

theorem validate_store_other (env : Env) (tok : OtpToken) (now delta : Int)
    (f : Nat) (sc : Option Nat) (st : WState) (x : Nat) (hx : x ≠ tok.sdn) :
    ((validate env tok now delta f sc st).st).store x = st.store x := by
  unfold validate
  split
  · dsimp only
    split
    · rfl
    · exact validateAt_store_other env tok now _ _ f sc st x hx
  · split
    · rfl
    · exact validateAt_store_other env tok now _ _ f sc st x hx
  · rfl


theorem commitStep_fail_token (env : Env) (tok : OtpToken) (st : WState)
    (attr : Attr) (v : Int) :
    (commitStep env tok st attr v).ok = false →
    (commitStep env tok st attr v).token = tok := by
  unfold commitStep
  dsimp only
  split
  · intro h; simp at h
  · intro _; rfl

theorem commitStep_ok_token (env : Env) (tok : OtpToken) (st : WState)
    (attr : Attr) (v : Int) :
    (commitStep env tok st attr v).ok = true →
    (commitStep env tok st attr v).token = tok.setCursor (u64 v) := by
  unfold commitStep
  dsimp only
  split
  · intro _; rfl
  · intro h; simp at h

theorem validateAt_fail_token (env : Env) (tok : OtpToken) (now s : Int)
    (attr : Attr) (f : Nat) (sc : Option Nat) (st : WState) :
    (validateAt env tok now s attr f sc st).ok = false →
    (validateAt env tok now s attr f sc st).token = tok := by
  unfold validateAt
  dsimp only
  split
  · intro _; rfl
  · split
    · intro _; rfl
    · split
      · exact commitStep_fail_token env tok st attr _
      · split
        · intro _; rfl
        · split
          · intro _; rfl
          · split
            · split
              · exact commitStep_fail_token env tok _ attr _
              · intro _; rfl
            · exact commitStep_fail_token env tok st attr _

theorem validate_fail_token (env : Env) (tok : OtpToken) (now delta : Int)
    (f : Nat) (sc : Option Nat) (st : WState) :
    (validate env tok now delta f sc st).ok = false →
    (validate env tok now delta f sc st).token = tok := by
  unfold validate
  split
  · dsimp only
    split
    · intro _; rfl
    · exact validateAt_fail_token env tok now _ _ f sc st
  · split
    · intro _; rfl
    · exact validateAt_fail_token env tok now _ _ f sc st
  · intro _; rfl

theorem validateAt_ok_token (env : Env) (tok : OtpToken) (now s : Int)
    (attr : Attr) (f : Nat) (sc : Option Nat) (st : WState) :
    (validateAt env tok now s attr f sc st).ok = true →
    (validateAt env tok now s attr f sc st).token = tok.setCursor (u64 (s + 1)) ∨
    (validateAt env tok now s attr f sc st).token = tok.setCursor (u64 (s + 2)) := by
  unfold validateAt
  dsimp only
  split
  · intro h; simp at h
  · split
    · intro h; simp at h
    · split
      · intro h; exact Or.inl (commitStep_ok_token env tok st attr _ h)
      · split
        · intro h; simp at h
        · split
          · intro h; simp at h
          · split
            · split
              · intro h; exact Or.inr (commitStep_ok_token env tok _ attr _ h)
              · intro h; simp at h
            · intro h; exact Or.inr (commitStep_ok_token env tok st attr _ h)

theorem commitStep_hok (env : Env) (tok : OtpToken) (st : WState) (attr : Attr)
    (v : Int) (hok : env.ok st.n = true) :
    (commitStep env tok st attr v).ok = true := by
  unfold commitStep writeattr
  simp [hok]

theorem validate_hotp_eq (env : Env) (tok : OtpToken) (h : HotpState)
    (now delta : Int) (f : Nat) (sc : Option Nat) (st : WState)
    (htk : tok.kind = TokenKind.hotp h) :
    validate env tok now delta f sc st =
      if delta < 0 then ⟨false, tok, st⟩
      else validateAt env tok now ((h.counter : Int) + delta) Attr.hotpCounter
        f sc st := by
  unfold validate
  rw [htk]

theorem validate_totp_eq (env : Env) (tok : OtpToken) (t : TotpState)
    (now delta : Int) (f : Nat) (sc : Option Nat) (st : WState)
    (htk : tok.kind = TokenKind.totp t) :
    validate env tok now delta f sc st =
      if t.watermark > 0 ∧
        u64 (Int.tdiv (now + t.offset) (t.step : Int) + delta) < t.watermark
      then ⟨false, tok, st⟩
      else validateAt env tok now (Int.tdiv (now + t.offset) (t.step : Int) + delta)
        Attr.totpWatermark f sc st := by
  unfold validate
  rw [htk]


theorem cursorNat_setCursor (tok : OtpToken) (v : Nat)
    (hk : tok.kind ≠ TokenKind.invalid) :
    (tok.setCursor v).cursorNat = v := by
  cases htk : tok.kind with
  | totp t => simp [OtpToken.setCursor, OtpToken.cursorNat, htk]
  | hotp h => simp [OtpToken.setCursor, OtpToken.cursorNat, htk]
  | invalid => exact absurd htk hk

/-! ## Claim theorems -/

/-- Claim C2: for every HOTP token, a negative offset is rejected before any
code is generated (the result is `false` with nothing changed, whatever the
generator); every accepted absolute step is at least the counter baseline; a
successful validation strictly increases the in-memory counter, and the
counter never decreases. -/
theorem hotp_counter_never_backward (env : Env) (tok : OtpToken)
    (h : HotpState) (now delta : Int) (first : Nat) (second : Option Nat)
    (st : WState) (htk : tok.kind = TokenKind.hotp h)
    (hfit : h.counter + delta.natAbs + 2 < 2 ^ 64) :
    (delta < 0 → validate env tok now delta first second st = ⟨false, tok, st⟩) ∧
    ((validate env tok now delta first second st).ok = true →
      (h.counter : Int) ≤ stepOf tok now delta) ∧
    ((validate env tok now delta first second st).ok = true →
      tok.cursorNat < (validate env tok now delta first second st).token.cursorNat) ∧
    tok.cursorNat ≤ (validate env tok now delta first second st).token.cursorNat := by
  have hred := validate_hotp_eq env tok h now delta first second st htk
  have hcur : tok.cursorNat = h.counter := by
    simp [OtpToken.cursorNat, htk]
  have hda : delta ≤ (delta.natAbs : Int) := Int.le_natAbs
  have strict : (validate env tok now delta first second st).ok = true →
      tok.cursorNat < (validate env tok now delta first second st).token.cursorNat := by
    intro hokk
    by_cases hneg : delta < 0
    · rw [hred, if_pos hneg] at hokk
      simp at hokk
    · rw [hred, if_neg hneg] at hokk ⊢
      push_neg at hneg
      have hshape := validateAt_ok_token env tok now ((h.counter : Int) + delta)
        Attr.hotpCounter first second st hokk
      have hki : tok.kind ≠ TokenKind.invalid := by rw [htk]; intro hc; cases hc
      rcases hshape with hs | hs <;> rw [hs, cursorNat_setCursor tok _ hki, hcur]
      · rw [u64_eq_toNat _ (by omega) (by omega)]
        omega
      · rw [u64_eq_toNat _ (by omega) (by omega)]
        omega
  refine ⟨?_, ?_, strict, ?_⟩
  · intro hneg
    rw [hred, if_pos hneg]
  · intro hokk
    by_cases hneg : delta < 0
    · rw [hred, if_pos hneg] at hokk
      simp at hokk
    · have hsq : stepOf tok now delta = (h.counter : Int) + delta := by
        unfold stepOf
        rw [htk]
      rw [hsq]
      push_neg at hneg
      omega
  · by_cases hokk : (validate env tok now delta first second st).ok = true
    · exact le_of_lt (strict hokk)
    · have hf : (validate env tok now delta first second st).ok = false := by
        revert hokk
        cases (validate env tok now delta first second st).ok <;> simp
      rw [validate_fail_token env tok now delta first second st hf]

/-- Witness for C2 at a concrete HOTP token: counter 5, offset 1, presented
code `genId 6 = 43` (the counter never decreases across the call). -/
theorem hotp_counter_never_backward_wit :
    tokHot.cursorNat ≤
      (validate envAll tokHot 0 1 43 Option.none st0).token.cursorNat :=
  (hotp_counter_never_backward envAll tokHot ⟨5⟩ 0 1 43 Option.none st0
    (by rfl) (by decide)).2.2.2

/-- Claim C3 is false of the code (code bug): with watermark `5 > 0`,
`now = 29`, radius `1`, the negative candidate step `-1` is below the
watermark, yet the guard `watermark > 0 && step < watermark` converts the
signed step to unsigned and passes, the code generated at step `-1` is
accepted, and the watermark is regressed to `0`. -/
theorem totp_watermark_bypass_bug :
    wmNat tokWm = 5 ∧
    stepOf tokWm 29 (-1) = -1 ∧
    stepOf tokWm 29 (-1) < (wmNat tokWm : Int) ∧
    tokWm.gen (stepOf tokWm 29 (-1)) = Option.some 42 ∧
    (otptoken_validate envAll tokWm 29 1 42 st0).ok = true ∧
    (otptoken_validate envAll tokWm 29 1 42 st0).token.cursorNat = 0 := by
  decide


theorem validateAt_single (env : Env) (tok : OtpToken) (now s : Int)
    (attr : Attr) (f : Nat) (st : WState) (hg : tok.gen s = Option.some f) :
    validateAt env tok now s attr f Option.none st =
      commitStep env tok st attr (s + 1) := by
  unfold validateAt
  rw [hg]
  simp

theorem commitStep_ok_eq (env : Env) (tok : OtpToken) (st : WState)
    (attr : Attr) (v : Int) (hok : env.ok st.n = true) :
    commitStep env tok st attr v =
      ⟨true, tok.setCursor (u64 v),
       ⟨fun x => if x = tok.sdn then (st.store tok.sdn).writeA attr (toInt32 v)
                 else st.store x,
        st.n + 1⟩⟩ := by
  unfold commitStep writeattr
  simp [hok]

theorem validate_mismatch (env : Env) (tok : OtpToken) (now delta : Int)
    (f : Nat) (sc : Option Nat) (st : WState)
    (hmm : ∀ c1, tok.gen (stepOf tok now delta) = Option.some c1 → f ≠ c1) :
    validate env tok now delta f sc st = ⟨false, tok, st⟩ := by
  unfold validate stepOf at *
  cases htk : tok.kind with
  | totp t =>
    rw [htk] at hmm
    dsimp only at hmm ⊢
    split
    · rfl
    · unfold validateAt
      cases hg : tok.gen ((now + t.offset).tdiv (t.step : Int) + delta) with
      | none => rfl
      | some c1 =>
        dsimp only
        rw [if_pos (hmm c1 hg)]
  | hotp h =>
    rw [htk] at hmm
    dsimp only at hmm ⊢
    split
    · rfl
    · unfold validateAt
      cases hg : tok.gen ((h.counter : Int) + delta) with
      | none => rfl
      | some c1 =>
        dsimp only
        rw [if_pos (hmm c1 hg)]
  | invalid =>
    rfl

theorem validate_totp_guardfail (env : Env) (tok : OtpToken) (t : TotpState)
    (now delta : Int) (f : Nat) (sc : Option Nat) (st : WState)
    (htk : tok.kind = TokenKind.totp t)
    (hguard : t.watermark > 0 ∧
      u64 (Int.tdiv (now + t.offset) (t.step : Int) + delta) < t.watermark) :
    validate env tok now delta f sc st = ⟨false, tok, st⟩ := by
  rw [validate_totp_eq env tok t now delta f sc st htk, if_pos hguard]

theorem otptoken_validate_zero_first (env : Env) (tok : OtpToken) (now : Int)
    (c : Nat) (st : WState)
    (h : (validate env tok now 0 c Option.none st).ok = true) :
    otptoken_validate env tok now 0 c st =
      validate env tok now 0 c Option.none st := by
  unfold otptoken_validate validateStepLoop
  simp only [Nat.cast_zero]
  rw [if_pos h]

theorem otptoken_validate_zero_fail (env : Env) (tok : OtpToken) (now : Int)
    (c : Nat) (st : WState)
    (h : validate env tok now 0 c Option.none st = ⟨false, tok, st⟩) :
    (otptoken_validate env tok now 0 c st).ok = false := by
  unfold otptoken_validate validateStepLoop
  simp only [Nat.cast_zero, neg_zero, h]
  norm_num
  rfl


/-- Claim C4: a code generated at the current baseline step `B` validates in
single-code mode with `steps = 0`; the cursor (TOTP watermark / HOTP counter)
is advanced in memory and committed with value `B + 1`; a second presentation
of the same code against the updated token and store fails (replay is
rejected), in any write environment. -/
theorem baseline_code_validates_replay_rejected (env env2 : Env)
    (tok : OtpToken) (now : Int) (c : Nat) (st : WState)
    (hk : tok.kind ≠ TokenKind.invalid)
    (hB0 : 0 ≤ baseline tok now)
    (hBfit : baseline tok now + 1 < 2 ^ 31)
    (hwm : wmNat tok ≤ (baseline tok now).toNat)
    (hg1 : tok.gen (baseline tok now) = Option.some c)
    (hg2 : tok.gen (baseline tok now + 1) ≠ Option.some c)
    (henv : env.ok st.n = true) :
    (otptoken_validate env tok now 0 c st).ok = true ∧
    (otptoken_validate env tok now 0 c st).token.cursorNat =
      (baseline tok now + 1).toNat ∧
    cursorVal tok ((otptoken_validate env tok now 0 c st).st.store tok.sdn) =
      baseline tok now + 1 ∧
    (otptoken_validate env2 (otptoken_validate env tok now 0 c st).token now 0 c
      (otptoken_validate env tok now 0 c st).st).ok = false := by
  cases htk : tok.kind with
  | invalid => exact absurd htk hk
  | totp t =>
    have hBeq : baseline tok now = Int.tdiv (now + t.offset) (t.step : Int) := by
      unfold baseline stepOf
      rw [htk]
      exact add_zero _
    have hT0 : 0 ≤ Int.tdiv (now + t.offset) (t.step : Int) := by
      rw [← hBeq]; exact hB0
    have hTfit : Int.tdiv (now + t.offset) (t.step : Int) + 1 < 2 ^ 31 := by
      rw [← hBeq]; exact hBfit
    have hg1T : tok.gen (Int.tdiv (now + t.offset) (t.step : Int)) =
        Option.some c := by rw [← hBeq]; exact hg1
    have hwmT : t.watermark ≤ (Int.tdiv (now + t.offset) (t.step : Int)).toNat := by
      have hw : wmNat tok = t.watermark := by unfold wmNat; rw [htk]
      rw [← hBeq, ← hw]; exact hwm
    have hguardF : ¬(t.watermark > 0 ∧
        u64 (Int.tdiv (now + t.offset) (t.step : Int) + 0) < t.watermark) := by
      rintro ⟨hpos, hlt⟩
      rw [add_zero, u64_eq_toNat _ hT0 (by omega)] at hlt
      omega
    have hval : validate env tok now 0 c Option.none st =
        ⟨true, tok.setCursor (u64 (Int.tdiv (now + t.offset) (t.step : Int) + 1)),
         ⟨fun x => if x = tok.sdn then
             (st.store tok.sdn).writeA Attr.totpWatermark
               (toInt32 (Int.tdiv (now + t.offset) (t.step : Int) + 1))
           else st.store x,
          st.n + 1⟩⟩ := by
      rw [validate_totp_eq env tok t now 0 c Option.none st htk, if_neg hguardF,
          add_zero, validateAt_single env tok now _ Attr.totpWatermark c st hg1T,
          commitStep_ok_eq env tok st Attr.totpWatermark _ henv]
    have hdrv : otptoken_validate env tok now 0 c st =
        validate env tok now 0 c Option.none st :=
      otptoken_validate_zero_first env tok now c st (by rw [hval])
    have htk2 : (tok.setCursor
        (u64 (Int.tdiv (now + t.offset) (t.step : Int) + 1))).kind =
        TokenKind.totp { t with
          watermark := u64 (Int.tdiv (now + t.offset) (t.step : Int) + 1) } := by
      unfold OtpToken.setCursor
      rw [htk]
    have hrep : ∀ st2 : WState,
        validate env2
          (tok.setCursor (u64 (Int.tdiv (now + t.offset) (t.step : Int) + 1)))
          now 0 c Option.none st2 =
        ⟨false, tok.setCursor (u64 (Int.tdiv (now + t.offset) (t.step : Int) + 1)),
         st2⟩ := by
      intro st2
      apply validate_totp_guardfail env2 _
        { t with watermark := u64 (Int.tdiv (now + t.offset) (t.step : Int) + 1) }
        now 0 c Option.none st2 htk2
      constructor
      · show 0 < u64 (Int.tdiv (now + t.offset) (t.step : Int) + 1)
        rw [u64_eq_toNat _ (by omega) (by omega)]
        omega
      · show u64 (Int.tdiv (now + t.offset) (t.step : Int) + 0) <
          u64 (Int.tdiv (now + t.offset) (t.step : Int) + 1)
        rw [add_zero, u64_eq_toNat _ hT0 (by omega),
            u64_eq_toNat _ (by omega) (by omega)]
        omega
    rw [hdrv, hval]
    refine ⟨rfl, ?_, ?_, ?_⟩
    · show (tok.setCursor _).cursorNat = _
      rw [cursorNat_setCursor _ _ hk, hBeq, u64_eq_toNat _ (by omega) (by omega)]
    · show cursorVal tok (if tok.sdn = tok.sdn then _ else _) = _
      rw [if_pos rfl]
      unfold cursorVal
      rw [htk]
      show ((st.store tok.sdn).writeA Attr.totpWatermark
        (toInt32 (Int.tdiv (now + t.offset) (t.step : Int) + 1))).watermark = _
      unfold Rec.writeA
      rw [toInt32_eq_self _ (by omega) (by omega), hBeq]
    · exact otptoken_validate_zero_fail env2 _ now c _ (hrep _)
  | hotp h =>
    have hBeq : baseline tok now = (h.counter : Int) := by
      unfold baseline stepOf
      rw [htk]
      exact add_zero _
    have hg1T : tok.gen ((h.counter : Int)) = Option.some c := by
      rw [← hBeq]; exact hg1
    have hval : validate env tok now 0 c Option.none st =
        ⟨true, tok.setCursor (u64 ((h.counter : Int) + 1)),
         ⟨fun x => if x = tok.sdn then
             (st.store tok.sdn).writeA Attr.hotpCounter
               (toInt32 ((h.counter : Int) + 1))
           else st.store x,
          st.n + 1⟩⟩ := by
      rw [validate_hotp_eq env tok h now 0 c Option.none st htk,
          if_neg (by omega : ¬(0 : Int) < 0), add_zero,
          validateAt_single env tok now _ Attr.hotpCounter c st hg1T,
          commitStep_ok_eq env tok st Attr.hotpCounter _ henv]
    have hdrv : otptoken_validate env tok now 0 c st =
        validate env tok now 0 c Option.none st :=
      otptoken_validate_zero_first env tok now c st (by rw [hval])
    have hfit : (h.counter : Int) + 1 < 2 ^ 31 := by rw [← hBeq]; exact hBfit
    have htk2 : (tok.setCursor (u64 ((h.counter : Int) + 1))).kind =
        TokenKind.hotp { counter := u64 ((h.counter : Int) + 1) } := by
      unfold OtpToken.setCursor
      rw [htk]
    have hrep : ∀ st2 : WState,
        validate env2 (tok.setCursor (u64 ((h.counter : Int) + 1)))
          now 0 c Option.none st2 =
        ⟨false, tok.setCursor (u64 ((h.counter : Int) + 1)), st2⟩ := by
      intro st2
      apply validate_mismatch
      intro c1 hgc1
      have hsg : (tok.setCursor (u64 ((h.counter : Int) + 1))).gen = tok.gen :=
        setCursor_gen tok _
      have hstep : stepOf (tok.setCursor (u64 ((h.counter : Int) + 1))) now 0 =
          (h.counter : Int) + 1 := by
        unfold stepOf
        rw [htk2]
        dsimp only
        rw [u64_eq_toNat _ (by omega) (by omega)]
        omega
      rw [hsg, hstep, ← hBeq] at hgc1
      intro hcc
      rw [hcc] at hg2
      exact hg2 hgc1
    rw [hdrv, hval]
    refine ⟨rfl, ?_, ?_, ?_⟩
    · show (tok.setCursor _).cursorNat = _
      rw [cursorNat_setCursor _ _ hk, hBeq, u64_eq_toNat _ (by omega) (by omega)]
    · show cursorVal tok (if tok.sdn = tok.sdn then _ else _) = _
      rw [if_pos rfl]
      unfold cursorVal
      rw [htk]
      show ((st.store tok.sdn).writeA Attr.hotpCounter
        (toInt32 ((h.counter : Int) + 1))).counter = _
      unfold Rec.writeA
      rw [toInt32_eq_self _ (by omega) (by omega), hBeq]
    · exact otptoken_validate_zero_fail env2 _ now c _ (hrep _)

/-- Witness for C4 at the concrete TOTP token `tokTot`, `now = 60`
(baseline step 2), presented code `genId 2 = 15`. -/
theorem baseline_code_validates_replay_rejected_wit :
    (otptoken_validate envAll tokTot 60 0 15 st0).ok = true ∧
    (otptoken_validate envAll tokTot 60 0 15 st0).token.cursorNat =
      (baseline tokTot 60 + 1).toNat ∧
    cursorVal tokTot
      ((otptoken_validate envAll tokTot 60 0 15 st0).st.store tokTot.sdn) =
      baseline tokTot 60 + 1 ∧
    (otptoken_validate envAll (otptoken_validate envAll tokTot 60 0 15 st0).token
      60 0 15 (otptoken_validate envAll tokTot 60 0 15 st0).st).ok = false :=
  baseline_code_validates_replay_rejected envAll envAll tokTot 60 15 st0
    (by decide) (by decide) (by decide) (by decide) (by decide) (by decide)
    (by decide)


theorem validateAt_second_required (env : Env) (tok : OtpToken) (now s : Int)
    (attr : Attr) (f c2 : Nat) (st : WState) :
    (validateAt env tok now s attr f (Option.some c2) st).ok = true →
    tok.gen (s + 1) = Option.some c2 := by
  unfold validateAt
  dsimp only
  split
  · intro hcon; simp at hcon
  · split
    · intro hcon; simp at hcon
    · split
      · intro hcon; simp at hcon
      · split
        · intro hcon; simp at hcon
        · rename_i g2 heq hne
          have hc2 : c2 = g2 := by
            by_contra hc
            exact hne hc
          split
          · intro _; rw [heq, hc2]
          · intro _; rw [heq, hc2]

theorem validate_second_required (env : Env) (tok : OtpToken)
    (now delta : Int) (f c2 : Nat) (st : WState) :
    (validate env tok now delta f (Option.some c2) st).ok = true →
    tok.gen (stepOf tok now delta + 1) = Option.some c2 := by
  unfold validate stepOf
  cases htk : tok.kind with
  | totp t =>
    dsimp only
    split
    · intro hcon; simp at hcon
    · exact validateAt_second_required env tok now _ _ f c2 st
  | hotp h =>
    dsimp only
    split
    · intro hcon; simp at hcon
    · exact validateAt_second_required env tok now _ _ f c2 st
  | invalid =>
    intro hcon; simp at hcon

theorem validateAt_double_totp (env : Env) (tok : OtpToken) (t : TotpState)
    (now s : Int) (f c2 : Nat) (st : WState)
    (htk : tok.kind = TokenKind.totp t)
    (hg1 : tok.gen s = Option.some f)
    (hg2 : tok.gen (s + 1) = Option.some c2) :
    validateAt env tok now s Attr.totpWatermark f (Option.some c2) st =
      (let w := writeattr env tok.sdn st Attr.totpClockOffset
         (toInt32 (((((s + 2) - Int.tdiv now (t.step : Int)) * (t.step : Int)) %
           (2 ^ 32 : Int)).toNat : Int))
       if w.1 then commitStep env tok w.2 Attr.totpWatermark (s + 2)
       else ⟨false, tok, w.2⟩) := by
  unfold validateAt
  rw [hg1]
  dsimp only
  rw [if_neg (by simp), hg2]
  dsimp only
  rw [if_neg (by simp), htk]

theorem validateAt_double_hotp (env : Env) (tok : OtpToken) (h : HotpState)
    (now s : Int) (f c2 : Nat) (st : WState)
    (htk : tok.kind = TokenKind.hotp h)
    (hg1 : tok.gen s = Option.some f)
    (hg2 : tok.gen (s + 1) = Option.some c2) :
    validateAt env tok now s Attr.hotpCounter f (Option.some c2) st =
      commitStep env tok st Attr.hotpCounter (s + 2) := by
  unfold validateAt
  rw [hg1]
  dsimp only
  rw [if_neg (by simp), hg2]
  dsimp only
  rw [if_neg (by simp), htk]

theorem writeattr_ok_eq (env : Env) (sdn : Nat) (st : WState) (a : Attr)
    (v : Int) (hok : env.ok st.n = true) :
    writeattr env sdn st a v =
      (true, ⟨fun x => if x = sdn then (st.store sdn).writeA a v else st.store x,
              st.n + 1⟩) := by
  unfold writeattr
  rw [if_pos hok]


/-- Claim C5: in two-code (resynchronization) mode, acceptance at step `s`
additionally requires the code generated at `s + 1` to equal the second
presented code; on success the committed cursor value is `s + 2`, and for a
TOTP token the committed clock offset is
`(s + 2 − floor(now / step_seconds)) × step_seconds`. -/
theorem twocode_resync_commit (env : Env) (tok : OtpToken) (now delta : Int)
    (c1 c2 : Nat) (st : WState)
    (hk : tok.kind ≠ TokenKind.invalid)
    (hd : 0 ≤ delta)
    (hnow : 0 ≤ now)
    (hs0 : 0 ≤ stepOf tok now delta)
    (hsfit : stepOf tok now delta + 2 < 2 ^ 31)
    (hwm : wmNat tok ≤ (stepOf tok now delta).toNat)
    (hg1 : tok.gen (stepOf tok now delta) = Option.some c1)
    (hok : ∀ n, env.ok n = true)
    (hoff : isTotp tok = true →
      -2 ^ 31 ≤ (stepOf tok now delta + 2 - Int.fdiv now (stepSec tok)) *
        (stepSec tok : Int) ∧
      (stepOf tok now delta + 2 - Int.fdiv now (stepSec tok)) *
        (stepSec tok : Int) < 2 ^ 31) :
    ((validate env tok now delta c1 (Option.some c2) st).ok = true →
      tok.gen (stepOf tok now delta + 1) = Option.some c2) ∧
    (tok.gen (stepOf tok now delta + 1) = Option.some c2 →
      (validate env tok now delta c1 (Option.some c2) st).ok = true ∧
      cursorVal tok
        ((validate env tok now delta c1 (Option.some c2) st).st.store tok.sdn) =
        stepOf tok now delta + 2 ∧
      (isTotp tok = true →
        ((validate env tok now delta c1 (Option.some c2) st).st.store
          tok.sdn).clockOffset =
        (stepOf tok now delta + 2 - Int.fdiv now (stepSec tok)) *
          (stepSec tok : Int))) := by
  refine ⟨validate_second_required env tok now delta c1 c2 st, ?_⟩
  intro hg2
  cases htk : tok.kind with
  | invalid => exact absurd htk hk
  | totp t =>
    have hSeq : stepOf tok now delta =
        Int.tdiv (now + t.offset) (t.step : Int) + delta := by
      unfold stepOf
      rw [htk]
    have hisT : isTotp tok = true := by unfold isTotp; rw [htk]
    have hstepSec : stepSec tok = t.step := by unfold stepSec; rw [htk]
    have htd : Int.tdiv now (t.step : Int) = Int.fdiv now (t.step : Int) := by
      rw [Int.tdiv_eq_ediv hnow (by positivity),
          Int.fdiv_eq_ediv now (by positivity)]
    rw [hSeq] at hs0 hsfit hwm hg1 hg2 ⊢
    rw [hstepSec, hSeq] at hoff
    have hoffb := hoff hisT
    rw [← htd] at hoffb
    have hguardF : ¬(t.watermark > 0 ∧
        u64 (Int.tdiv (now + t.offset) (t.step : Int) + delta) < t.watermark) := by
      rintro ⟨hpos, hlt⟩
      have hw : wmNat tok = t.watermark := by unfold wmNat; rw [htk]
      rw [u64_eq_toNat _ hs0 (by omega)] at hlt
      omega
    have hval : validate env tok now delta c1 (Option.some c2) st =
        commitStep env tok
          ⟨fun x => if x = tok.sdn then
              (st.store tok.sdn).writeA Attr.totpClockOffset
                (toInt32
                  (((((Int.tdiv (now + t.offset) (t.step : Int) + delta + 2) -
                      Int.tdiv now (t.step : Int)) * (t.step : Int)) %
                    (2 ^ 32 : Int)).toNat : Int))
            else st.store x,
           st.n + 1⟩
          Attr.totpWatermark
          (Int.tdiv (now + t.offset) (t.step : Int) + delta + 2) := by
      rw [validate_totp_eq env tok t now delta c1 (Option.some c2) st htk,
          if_neg hguardF,
          validateAt_double_totp env tok t now _ c1 c2 st htk hg1 hg2]
      dsimp only
      rw [writeattr_ok_eq env tok.sdn st Attr.totpClockOffset _ (hok st.n)]
      dsimp only
      rw [if_pos rfl]
    rw [hval, commitStep_ok_eq env tok _ Attr.totpWatermark _ (hok _)]
    refine ⟨rfl, ?_, ?_⟩
    · dsimp only
      rw [if_pos rfl, if_pos rfl]
      unfold cursorVal
      rw [htk]
      show ((((st.store tok.sdn).writeA Attr.totpClockOffset _).writeA
        Attr.totpWatermark
          (toInt32 (Int.tdiv (now + t.offset) (t.step : Int) + delta + 2)))).watermark = _
      unfold Rec.writeA
      rw [toInt32_eq_self _ (by omega) (by omega)]
    · intro _
      dsimp only
      rw [if_pos rfl, if_pos rfl]
      show ((((st.store tok.sdn).writeA Attr.totpClockOffset
        (toInt32
          (((((Int.tdiv (now + t.offset) (t.step : Int) + delta + 2) -
              Int.tdiv now (t.step : Int)) * (t.step : Int)) %
            (2 ^ 32 : Int)).toNat : Int))).writeA Attr.totpWatermark
          _)).clockOffset = _
      unfold Rec.writeA
      dsimp only
      rw [toInt32_wrap32, toInt32_eq_self _ (by omega) (by omega), hstepSec, ← htd]
  | hotp h =>
    have hSeq : stepOf tok now delta = (h.counter : Int) + delta := by
      unfold stepOf
      rw [htk]
    rw [hSeq] at hs0 hsfit hg1 hg2 ⊢
    have hval : validate env tok now delta c1 (Option.some c2) st =
        commitStep env tok st Attr.hotpCounter ((h.counter : Int) + delta + 2) := by
      rw [validate_hotp_eq env tok h now delta c1 (Option.some c2) st htk,
          if_neg (by omega),
          validateAt_double_hotp env tok h now _ c1 c2 st htk hg1 hg2]
    rw [hval, commitStep_ok_eq env tok st Attr.hotpCounter _ (hok st.n)]
    refine ⟨rfl, ?_, ?_⟩
    · dsimp only
      rw [if_pos rfl]
      unfold cursorVal
      rw [htk]
      show ((st.store tok.sdn).writeA Attr.hotpCounter
        (toInt32 ((h.counter : Int) + delta + 2))).counter = _
      unfold Rec.writeA
      rw [toInt32_eq_self _ (by omega) (by omega)]
    · intro hcontra
      have hisF : isTotp tok = false := by unfold isTotp; rw [htk]
      rw [hisF] at hcontra
      cases hcontra

/-- Witness for C5 at the concrete TOTP token `tokTot`, `now = 600`
(baseline step 20), `delta = 0`, codes `genId 20 = 141` and `genId 21 = 148`. -/
theorem twocode_resync_commit_wit :
    (validate envAll tokTot 600 0 141 (Option.some 148) st0).ok = true ∧
    cursorVal tokTot
      ((validate envAll tokTot 600 0 141 (Option.some 148) st0).st.store
        tokTot.sdn) = stepOf tokTot 600 0 + 2 ∧
    ((validate envAll tokTot 600 0 141 (Option.some 148) st0).st.store
      tokTot.sdn).clockOffset =
      (stepOf tokTot 600 0 + 2 - Int.fdiv 600 (stepSec tokTot)) *
        (stepSec tokTot : Int) := by
  have X := (twocode_resync_commit envAll tokTot 600 0 141 148 st0 (by decide)
    (by decide) (by decide) (by decide) (by decide) (by decide) (by decide)
    (fun _ => rfl) (by decide)).2 (by decide)
  exact ⟨X.1, X.2.1, X.2.2 rfl⟩


theorem writeattr_fail_store (env : Env) (sdn : Nat) (st : WState) (a : Attr)
    (v : Int) :
    (writeattr env sdn st a v).1 = false →
    (writeattr env sdn st a v).2.store = st.store := by
  unfold writeattr
  by_cases he : env.ok st.n = true
  · rw [if_pos he]
    intro hcon
    simp at hcon
  · rw [if_neg he]
    intro _
    rfl

theorem writeattr_fail_eq (env : Env) (sdn : Nat) (st : WState) (a : Attr)
    (v : Int) (he : env.ok st.n = false) :
    writeattr env sdn st a v = (false, ⟨st.store, st.n + 1⟩) := by
  unfold writeattr
  rw [he]
  simp

theorem commitStep_fail_store (env : Env) (tok : OtpToken) (st : WState)
    (attr : Attr) (v : Int) :
    (commitStep env tok st attr v).ok = false →
    (commitStep env tok st attr v).st.store = st.store := by
  unfold commitStep
  dsimp only
  split
  · intro h; simp at h
  · rename_i hw
    intro _
    exact writeattr_fail_store env tok.sdn st attr _ (by
      revert hw
      cases (writeattr env tok.sdn st attr (toInt32 v)).1 <;> simp)

theorem validateAt_single_fail_store (env : Env) (tok : OtpToken) (now s : Int)
    (attr : Attr) (f : Nat) (st : WState) :
    (validateAt env tok now s attr f Option.none st).ok = false →
    (validateAt env tok now s attr f Option.none st).st.store = st.store := by
  unfold validateAt
  dsimp only
  split
  · intro _; rfl
  · split
    · intro _; rfl
    · exact commitStep_fail_store env tok st attr _

theorem validate_single_fail_store (env : Env) (tok : OtpToken)
    (now delta : Int) (f : Nat) (st : WState) :
    (validate env tok now delta f Option.none st).ok = false →
    (validate env tok now delta f Option.none st).st.store = st.store := by
  unfold validate
  split
  · dsimp only
    split
    · intro _; rfl
    · exact validateAt_single_fail_store env tok now _ _ f st
  · split
    · intro _; rfl
    · exact validateAt_single_fail_store env tok now _ _ f st
  · intro _; rfl


theorem commitStep_envfail_eq (env : Env) (tok : OtpToken) (st : WState)
    (attr : Attr) (v : Int) (he : env.ok st.n = false) :
    commitStep env tok st attr v = ⟨false, tok, ⟨st.store, st.n + 1⟩⟩ := by
  unfold commitStep writeattr
  rw [he]
  simp

theorem validateAt_double_fail_watermark (env : Env) (tok : OtpToken)
    (now s : Int) (attr : Attr) (f c2 : Nat) (st : WState) :
    (validateAt env tok now s attr f (Option.some c2) st).ok = false →
    ((validateAt env tok now s attr f (Option.some c2) st).st.store
      tok.sdn).watermark = (st.store tok.sdn).watermark ∧
    ((validateAt env tok now s attr f (Option.some c2) st).st.store
      tok.sdn).counter = (st.store tok.sdn).counter := by
  unfold validateAt
  dsimp only
  split
  · intro _; exact ⟨rfl, rfl⟩
  · split
    · intro _; exact ⟨rfl, rfl⟩
    · split
      · intro _; exact ⟨rfl, rfl⟩
      · split
        · intro _; exact ⟨rfl, rfl⟩
        · split
          case h_1 t heqk =>
            by_cases he : env.ok st.n = true
            · rw [writeattr_ok_eq env tok.sdn st Attr.totpClockOffset _ he]
              dsimp only
              rw [if_pos rfl]
              intro hfail
              rw [commitStep_fail_store env tok _ _ _ hfail]
              simp [Rec.writeA]
            · have he' : env.ok st.n = false := by
                revert he
                cases env.ok st.n <;> simp
              rw [writeattr_fail_eq env tok.sdn st Attr.totpClockOffset _ he']
              dsimp only
              rw [if_neg (by simp)]
              intro _
              exact ⟨rfl, rfl⟩
          case h_2 =>
            intro hfail
            rw [commitStep_fail_store env tok st attr _ hfail]
            exact ⟨rfl, rfl⟩


theorem validateAt_double_envfail_store (env : Env) (tok : OtpToken)
    (now s : Int) (attr : Attr) (f c2 : Nat) (st : WState)
    (he : env.ok st.n = false) :
    (validateAt env tok now s attr f (Option.some c2) st).st.store =
      st.store := by
  unfold validateAt
  dsimp only
  split
  · rfl
  · split
    · rfl
    · split
      · rfl
      · split
        · rfl
        · split
          case h_1 t heqk =>
            rw [writeattr_fail_eq env tok.sdn st Attr.totpClockOffset _ he]
            simp
          case h_2 =>
            rw [commitStep_envfail_eq env tok st attr _ he]

theorem validateAt_double_hotp_fail_store (env : Env) (tok : OtpToken)
    (h : HotpState) (now s : Int) (attr : Attr) (f c2 : Nat) (st : WState)
    (htk : tok.kind = TokenKind.hotp h) :
    (validateAt env tok now s attr f (Option.some c2) st).ok = false →
    (validateAt env tok now s attr f (Option.some c2) st).st.store =
      st.store := by
  unfold validateAt
  dsimp only
  split
  · intro _; rfl
  · split
    · intro _; rfl
    · split
      · intro _; rfl
      · split
        · intro _; rfl
        · split
          case h_1 t heqk =>
            rw [htk] at heqk
            cases heqk
          case h_2 =>
            exact commitStep_fail_store env tok st attr _

theorem validate_double_fail_wc (env : Env) (tok : OtpToken)
    (now delta : Int) (f c2 : Nat) (st : WState) :
    (validate env tok now delta f (Option.some c2) st).ok = false →
    ((validate env tok now delta f (Option.some c2) st).st.store
      tok.sdn).watermark = (st.store tok.sdn).watermark ∧
    ((validate env tok now delta f (Option.some c2) st).st.store
      tok.sdn).counter = (st.store tok.sdn).counter := by
  unfold validate
  split
  · dsimp only
    split
    · intro _; exact ⟨rfl, rfl⟩
    · exact validateAt_double_fail_watermark env tok now _ _ f c2 st
  · split
    · intro _; exact ⟨rfl, rfl⟩
    · exact validateAt_double_fail_watermark env tok now _ _ f c2 st
  · intro _; exact ⟨rfl, rfl⟩

theorem validate_double_envfail_store (env : Env) (tok : OtpToken)
    (now delta : Int) (f c2 : Nat) (st : WState)
    (he : env.ok st.n = false) :
    (validate env tok now delta f (Option.some c2) st).st.store =
      st.store := by
  unfold validate
  split
  · dsimp only
    split
    · rfl
    · exact validateAt_double_envfail_store env tok now _ _ f c2 st he
  · split
    · rfl
    · exact validateAt_double_envfail_store env tok now _ _ f c2 st he
  · rfl

theorem validate_double_nontotp_fail_store (env : Env) (tok : OtpToken)
    (now delta : Int) (f c2 : Nat) (st : WState)
    (hnt : isTotp tok = false) :
    (validate env tok now delta f (Option.some c2) st).ok = false →
    (validate env tok now delta f (Option.some c2) st).st.store =
      st.store := by
  cases htk : tok.kind with
  | totp t =>
    exfalso
    unfold isTotp at hnt
    rw [htk] at hnt
    cases hnt
  | hotp h =>
    rw [validate_hotp_eq env tok h now delta f (Option.some c2) st htk]
    split
    · intro _; rfl
    · exact validateAt_double_hotp_fail_store env tok h now _ _ f c2 st htk
  | invalid =>
    unfold validate
    rw [htk]
    intro _
    rfl

/-- Claim C1 (amended): on any failed single-code validation the durable
store is exactly preserved (and the in-memory token unchanged); on a failed
two-code validation the in-memory token is unchanged, no other entry is
touched, and the entry's watermark and counter attributes are unchanged, and
the store is exactly preserved whenever the first write fails or the token is
not time-based — but a TOTP two-code failure after a successful clock-offset
write leaves the clock offset durably changed (see the counterexample). -/
theorem commit_failure_state (env : Env) (tok : OtpToken) (now delta : Int)
    (f c2 : Nat) (st : WState) :
    ((validate env tok now delta f Option.none st).ok = false →
      (validate env tok now delta f Option.none st).token = tok ∧
      (validate env tok now delta f Option.none st).st.store = st.store) ∧
    ((validate env tok now delta f (Option.some c2) st).ok = false →
      (validate env tok now delta f (Option.some c2) st).token = tok ∧
      (∀ x, x ≠ tok.sdn →
        (validate env tok now delta f (Option.some c2) st).st.store x =
          st.store x) ∧
      ((validate env tok now delta f (Option.some c2) st).st.store
        tok.sdn).watermark = (st.store tok.sdn).watermark ∧
      ((validate env tok now delta f (Option.some c2) st).st.store
        tok.sdn).counter = (st.store tok.sdn).counter ∧
      (env.ok st.n = false →
        (validate env tok now delta f (Option.some c2) st).st.store =
          st.store) ∧
      (isTotp tok = false →
        (validate env tok now delta f (Option.some c2) st).st.store =
          st.store)) := by
  constructor
  · intro hfail
    exact ⟨validate_fail_token env tok now delta f Option.none st hfail,
           validate_single_fail_store env tok now delta f st hfail⟩
  · intro hfail
    refine ⟨validate_fail_token env tok now delta f (Option.some c2) st hfail,
            fun x hx => validate_store_other env tok now delta f
              (Option.some c2) st x hx,
            (validate_double_fail_wc env tok now delta f c2 st hfail).1,
            (validate_double_fail_wc env tok now delta f c2 st hfail).2,
            fun he => validate_double_envfail_store env tok now delta f c2 st he,
            fun hnt => validate_double_nontotp_fail_store env tok now delta f
              c2 st hnt hfail⟩

/-- Claim C1 as stated is false at this input: with the second write failing,
the two-code TOTP validation returns failure, yet the clock-offset attribute
has durably changed from `0` to `60`. -/
theorem commit_failure_partial_write_cex :
    (validate envFirst tokTot 60 0 15 (Option.some 22) st0).ok = false ∧
    ((validate envFirst tokTot 60 0 15 (Option.some 22) st0).st.store
      tokTot.sdn).clockOffset = 60 ∧
    (st0.store tokTot.sdn).clockOffset = 0 := by
  decide

/-- Witness for the amended C1 at the same concrete input: the watermark
attribute is unchanged by the failed two-code validation. -/
theorem commit_failure_state_wit :
    ((validate envFirst tokTot 60 0 15 (Option.some 22) st0).st.store
      tokTot.sdn).watermark = (st0.store tokTot.sdn).watermark :=
  (((commit_failure_state envFirst tokTot 60 0 15 22 st0).2 (by decide)).2.2).1


theorem bvtodGo_all (cs : List Char) :
    ∀ a : Nat, allDig cs = true →
    bvtodGo cs (a % 2 ^ 32) =
      Option.some ((cs.foldl (fun x c => x * 10 + (c.toNat - 48)) a) % 2 ^ 32) := by
  induction cs with
  | nil => intro a _; rfl
  | cons c cs ih =>
    intro a h
    unfold allDig at h
    rw [List.all_cons, Bool.and_eq_true] at h
    obtain ⟨h1, h2⟩ := h
    unfold bvtodGo
    rw [if_pos h1]
    have hstep : bvtodStep (a % 2 ^ 32) c =
        (a * 10 + (c.toNat - 48)) % 2 ^ 32 := by
      unfold bvtodStep
      omega
    rw [hstep, List.foldl_cons]
    exact ih _ h2

theorem bvtodGo_not_digits (cs : List Char) (h : allDig cs = false) :
    ∀ a : Nat, bvtodGo cs a = Option.none := by
  induction cs with
  | nil =>
    unfold allDig at h
    simp at h
  | cons c cs ih =>
    intro a
    unfold bvtodGo
    by_cases hc : isDig c = true
    · rw [if_pos hc]
      apply ih
      unfold allDig at h ⊢
      rw [List.all_cons, hc, Bool.true_and] at h
      exact h
    · rw [if_neg hc]

theorem bvtod_digits (cs : List Char) (hne : cs ≠ []) (h : allDig cs = true) :
    bvtod cs = Option.some (natVal cs % 2 ^ 32) := by
  unfold bvtod natVal
  have hgo := bvtodGo_all cs 0 h
  rw [Nat.zero_mod] at hgo
  rw [hgo]
  simp [hne]

theorem bvtod_not_digits (cs : List Char) (h : allDig cs = false) :
    bvtod cs = Option.none := by
  unfold bvtod
  rw [bvtodGo_not_digits cs h 0]

theorem bvtod_none_iff (cs : List Char) :
    bvtod cs = Option.none ↔ cs = [] ∨ allDig cs = false := by
  constructor
  · intro hn
    by_cases hd : allDig cs = true
    · by_cases hne : cs = []
      · exact Or.inl hne
      · rw [bvtod_digits cs hne hd] at hn
        cases hn
    · refine Or.inr ?_
      revert hd
      cases allDig cs <;> simp
  · intro hor
    rcases hor with hnil | hbad
    · rw [hnil]
      rfl
    · exact bvtod_not_digits cs hbad

/-- Claim C8 (amended): an input shorter than `code_length` fails; an input of
length at least `code_length` has a window extracted — the trailing
`code_length` characters when `tail` is set, otherwise the *leading*
`code_length` characters (characters beyond the window are ignored, so a
longer non-tail input is not rejected); the window must be non-empty and all
digits, and decodes with leading zeros preserved (value taken modulo `2^32`
by the `uint32_t` accumulator); otherwise the result is a plain failure. -/
theorem berval_decode_windows (env : Env) (tok : OtpToken) (now : Int)
    (steps : Nat) (code : List Char) (tail : Bool) (st : WState) :
    (code.length < tok.digits →
      otptoken_validate_berval env tok now steps code tail st =
        ⟨false, tok, st⟩) ∧
    (tok.digits ≤ code.length →
      (if tail then code.drop (code.length - tok.digits)
       else code.take tok.digits) ≠ [] →
      allDig (if tail then code.drop (code.length - tok.digits)
              else code.take tok.digits) = true →
      otptoken_validate_berval env tok now steps code tail st =
        otptoken_validate env tok now steps
          (natVal (if tail then code.drop (code.length - tok.digits)
                   else code.take tok.digits) % 2 ^ 32) st) ∧
    (tok.digits ≤ code.length →
      allDig (if tail then code.drop (code.length - tok.digits)
              else code.take tok.digits) = false →
      otptoken_validate_berval env tok now steps code tail st =
        ⟨false, tok, st⟩) ∧
    (tok.digits ≤ code.length →
      (if tail then code.drop (code.length - tok.digits)
       else code.take tok.digits) = [] →
      otptoken_validate_berval env tok now steps code tail st =
        ⟨false, tok, st⟩) := by
  refine ⟨?_, ?_, ?_, ?_⟩
  · intro hlt
    unfold otptoken_validate_berval
    rw [if_pos hlt]
  · intro hle hne hdig
    unfold otptoken_validate_berval
    rw [if_neg (not_lt.mpr hle)]
    dsimp only
    rw [bvtod_digits _ hne hdig]
  · intro hle hbad
    unfold otptoken_validate_berval
    rw [if_neg (not_lt.mpr hle)]
    dsimp only
    rw [bvtod_not_digits _ hbad]
  · intro hle hnil
    unfold otptoken_validate_berval
    rw [if_neg (not_lt.mpr hle)]
    dsimp only
    rw [hnil]
    rfl

/-- Claim C8 as stated is false at this input: a 7-character non-tail input
against a 6-digit token is not rejected as malformed — its first 6 characters
are decoded and validated successfully. -/
theorem berval_prefix_accept_cex :
    ("1234567".data.length = 7 ∧ tokSix.digits = 6) ∧
    (otptoken_validate_berval envAll tokSix 0 0 "1234567".data false st0).ok =
      true := by
  decide

/-- Witness for the amended C8: with `tail` set, the trailing 6 characters of
a 9-character input are decoded (leading zeros preserved) and validated. -/
theorem berval_decode_windows_wit :
    otptoken_validate_berval envAll tokSix 0 0 "789123456".data true st0 =
      otptoken_validate envAll tokSix 0 0
        (natVal ("789123456".data.drop ("789123456".data.length - tokSix.digits)) % 2 ^ 32)
        st0 := by
  have X := (berval_decode_windows envAll tokSix 0 0 "789123456".data true
    st0).2.1 (by decide) (by decide) (by decide)
  exact X


theorem find_cons_eq (G : List Nat → String → Int → Int → Option Nat)
    (e : RawEntry) (es : List RawEntry) :
    find G (e :: es) =
      match otptoken_new G e with
      | Option.none => Option.none
      | Option.some t =>
        match find G es with
        | Option.none => Option.none
        | Option.some ts => Option.some (t :: ts) := rfl

theorem find_none_iff (G : List Nat → String → Int → Int → Option Nat)
    (es : List RawEntry) :
    find G es = Option.none ↔
      ∃ e ∈ es, otptoken_new G e = Option.none := by
  induction es with
  | nil =>
    constructor
    · intro h
      cases h
    · rintro ⟨e, he, _⟩
      cases he
  | cons e es ih =>
    rw [find_cons_eq]
    cases h : otptoken_new G e with
    | none =>
      constructor
      · intro _
        exact ⟨e, List.mem_cons_self e es, h⟩
      · intro _
        rfl
    | some t =>
      cases h2 : find G es with
      | none =>
        constructor
        · intro _
          obtain ⟨e', he', hfail⟩ := ih.mp h2
          exact ⟨e', List.mem_cons_of_mem e he', hfail⟩
        · intro _
          rfl
      | some ts =>
        constructor
        · intro hcon
          cases hcon
        · rintro ⟨e', he', hfail⟩
          rcases List.mem_cons.mp he' with rfl | htail
          · rw [h] at hfail
            cases hfail
          · have : find G es = Option.none := ih.mpr ⟨e', htail, hfail⟩
            rw [h2] at this
            cases this

theorem find_some_length (G : List Nat → String → Int → Int → Option Nat)
    (es : List RawEntry) :
    ∀ l, find G es = Option.some l → l.length = es.length := by
  induction es with
  | nil =>
    intro l h
    cases h
    rfl
  | cons e es ih =>
    intro l h
    rw [find_cons_eq] at h
    revert h
    cases h1 : otptoken_new G e with
    | none => intro h; cases h
    | some t =>
      cases h2 : find G es with
      | none => intro h; cases h
      | some ts =>
        intro h
        cases h
        simp [ih ts h2]

/-- Claim C9 (amended): the lookup is all-or-nothing — it returns a token
list if and only if every returned record constructs a valid token (the list
then has one token per record); any single construction failure makes the
whole lookup fail, even when sibling records construct valid tokens. -/
theorem find_all_or_nothing (G : List Nat → String → Int → Int → Option Nat)
    (es : List RawEntry) :
    (find G es = Option.none ↔ ∃ e ∈ es, otptoken_new G e = Option.none) ∧
    (∀ l, find G es = Option.some l → l.length = es.length) :=
  ⟨find_none_iff G es, find_some_length G es⟩

/-- Claim C9 as stated is false at this input: of two records the first
constructs a valid token and the second fails construction (digits 0), yet
the lookup hard-fails instead of returning the valid token. -/
theorem find_abort_cex :
    (otptoken_new genFac entGood).isSome = true ∧
    (otptoken_new genFac entBad).isSome = false ∧
    (find genFac [entGood, entBad]).isSome = false := by
  decide

/-- Witness for the amended C9: the two-record lookup with one bad record
fails outright. -/
theorem find_all_or_nothing_wit :
    find genFac [entGood, entBad] = Option.none :=
  (find_all_or_nothing genFac [entGood, entBad]).1.mpr
    ⟨entBad, by decide, by
      cases h : otptoken_new genFac entBad with
      | none => rfl
      | some t =>
        exfalso
        have : (otptoken_new genFac entBad).isSome = false := by decide
        rw [h] at this
        cases this⟩


/-- Claim C10: the two-code synchronization entry point performs no length
check of the presented strings against any token's code length — every pair
of non-empty all-digit strings of arbitrary length parses, with values
reduced modulo `2^32`, and is handed to the synchronizer; parsing rejects a
string exactly when it is empty or contains a non-digit. -/
theorem sync_berval_no_length_check (env : Env) (toks : List OtpToken)
    (now : Int) (steps : Nat) (s1 s2 : List Char) (st : WState) :
    (s1 ≠ [] → s2 ≠ [] → allDig s1 = true → allDig s2 = true →
      otptoken_sync_berval env toks now steps s1 s2 st =
        otptoken_sync env toks now steps (natVal s1 % 2 ^ 32)
          (natVal s2 % 2 ^ 32) st) ∧
    (∀ cs : List Char,
      bvtod cs = Option.none ↔ cs = [] ∨ allDig cs = false) := by
  constructor
  · intro h1 h2 hd1 hd2
    unfold otptoken_sync_berval
    rw [bvtod_digits s1 h1 hd1, bvtod_digits s2 h2 hd2]
  · exact bvtod_none_iff

/-- Witness for C10: a 20-digit first code parses (value reduced mod `2^32`)
and the synchronizer is reached, with no reference to any code length. -/
theorem sync_berval_no_length_check_wit :
    otptoken_sync_berval envAll [] 0 0 "99999999999999999999".data "1".data
      st0 =
      otptoken_sync envAll [] 0 0
        (natVal "99999999999999999999".data % 2 ^ 32)
        (natVal "1".data % 2 ^ 32) st0 :=
  (sync_berval_no_length_check envAll [] 0 0 "99999999999999999999".data
    "1".data st0).1 (by decide) (by decide) (by decide) (by decide)


theorem validateAt_fail_id (env : Env) (tok : OtpToken) (now s : Int)
    (attr : Attr) (f : Nat) (sc : Option Nat) (st : WState)
    (hok : ∀ n, env.ok n = true) :
    (validateAt env tok now s attr f sc st).ok = false →
    validateAt env tok now s attr f sc st = ⟨false, tok, st⟩ := by
  unfold validateAt
  dsimp only
  split
  · intro _; rfl
  · split
    · intro _; rfl
    · split
      · intro hfail
        rw [commitStep_hok env tok st attr _ (hok st.n)] at hfail
        simp at hfail
      · split
        · intro _; rfl
        · split
          · intro _; rfl
          · split
            case h_1 t heqk =>
              rw [writeattr_ok_eq env tok.sdn st Attr.totpClockOffset _
                (hok st.n)]
              dsimp only
              rw [if_pos rfl]
              intro hfail
              rw [commitStep_hok env tok _ attr _ (hok _)] at hfail
              simp at hfail
            case h_2 =>
              intro hfail
              rw [commitStep_hok env tok st attr _ (hok st.n)] at hfail
              simp at hfail

theorem validate_fail_id (env : Env) (tok : OtpToken) (now delta : Int)
    (f : Nat) (sc : Option Nat) (st : WState) (hok : ∀ n, env.ok n = true) :
    (validate env tok now delta f sc st).ok = false →
    validate env tok now delta f sc st = ⟨false, tok, st⟩ := by
  unfold validate
  split
  · dsimp only
    split
    · intro _; rfl
    · exact validateAt_fail_id env tok now _ _ f sc st hok
  · split
    · intro _; rfl
    · exact validateAt_fail_id env tok now _ _ f sc st hok
  · intro _; rfl

theorem validateStepLoop_spec (env : Env) (tok : OtpToken) (now : Int)
    (code : Nat) (st : WState) (hok : ∀ n, env.ok n = true) :
    ∀ (fuel i : Nat),
    validateStepLoop env now code fuel i tok st =
      match ((List.range' i fuel).flatMap
          (fun k => [(k : Int), -(k : Int)])).find?
          (vPred env tok now code st) with
      | Option.some d => validate env tok now d code Option.none st
      | Option.none => ⟨false, tok, st⟩ := by
  intro fuel
  induction fuel with
  | zero => intro i; rfl
  | succ fuel ih =>
    intro i
    have hranges : (List.range' i (fuel + 1)).flatMap
        (fun k => [(k : Int), -(k : Int)]) =
        (i : Int) :: -(i : Int) ::
          (List.range' (i + 1) fuel).flatMap
            (fun k => [(k : Int), -(k : Int)]) := by
      rw [List.range'_succ, List.flatMap_cons]
      rfl
    rw [hranges]
    unfold validateStepLoop
    dsimp only
    cases hr1 : vPred env tok now code st (i : Int) with
    | true =>
      rw [List.find?_cons_of_pos _ hr1]
      have hr1' : (validate env tok now (i : Int) code Option.none st).ok =
          true := hr1
      simp [hr1']
    | false =>
      have hr1' : (validate env tok now (i : Int) code Option.none st).ok =
          false := hr1
      have hid := validate_fail_id env tok now (i : Int) code Option.none st
        hok hr1'
      rw [List.find?_cons_of_neg _ (by rw [hr1]; simp), hid]
      dsimp only
      rw [if_neg (by simp)]
      cases hr2 : vPred env tok now code st (-(i : Int)) with
      | true =>
        rw [List.find?_cons_of_pos _ hr2]
        have hr2' : (validate env tok now (-(i : Int)) code Option.none
            st).ok = true := hr2
        simp [hr2']
      | false =>
        have hr2' : (validate env tok now (-(i : Int)) code Option.none
            st).ok = false := hr2
        have hid2 := validate_fail_id env tok now (-(i : Int)) code
          Option.none st hok hr2'
        rw [List.find?_cons_of_neg _ (by rw [hr2]; simp), hid2]
        dsimp only
        rw [if_neg (by simp)]
        exact ih (i + 1)

/-- Claim C6: with all store writes succeeding, single-code validation
sweeps candidate offsets in the exact order `+0, −0, +1, −1, …, +steps,
−steps` and returns at the first candidate whose guard and code comparison
succeed (the whole call then equals that single candidate validation); if no
candidate in the sweep matches, the result is a plain no-match with nothing
changed — not an error. -/
theorem single_sweep_order (env : Env) (tok : OtpToken) (now : Int)
    (steps : Nat) (code : Nat) (st : WState)
    (hok : ∀ n, env.ok n = true) :
    ((otptoken_validate env tok now steps code st).ok =
      ((sweepList steps).find? (vPred env tok now code st)).isSome) ∧
    (∀ d, (sweepList steps).find? (vPred env tok now code st) =
        Option.some d →
      otptoken_validate env tok now steps code st =
        validate env tok now d code Option.none st) ∧
    ((sweepList steps).find? (vPred env tok now code st) = Option.none →
      otptoken_validate env tok now steps code st = ⟨false, tok, st⟩) := by
  have key := validateStepLoop_spec env tok now code st hok (steps + 1) 0
  have hsweep : sweepList steps =
      (List.range' 0 (steps + 1)).flatMap
        (fun k => [(k : Int), -(k : Int)]) := by
    unfold sweepList
    rw [List.range_eq_range']
  unfold otptoken_validate
  rw [key, ← hsweep]
  cases hf : (sweepList steps).find? (vPred env tok now code st) with
  | none =>
    refine ⟨rfl, ?_, ?_⟩
    · intro d hd
      cases hd
    · intro _
      rfl
  | some d =>
    refine ⟨?_, ?_, ?_⟩
    · dsimp only
      have := List.find?_some hf
      rw [show (validate env tok now d code Option.none st).ok = true from this]
      rfl
    · intro d2 hd2
      have h : d = d2 := Option.some.inj hd2
      subst h
      rfl
    · intro hcon
      cases hcon

/-- Witness for C6: the first matching candidate of the sweep for the
concrete HOTP token is offset `+1`, and the whole windowed validation equals
that single candidate validation. -/
theorem single_sweep_order_wit :
    otptoken_validate envAll tokHot 0 1 43 st0 =
      validate envAll tokHot 0 1 43 Option.none st0 :=
  (single_sweep_order envAll tokHot 0 1 43 st0 (fun _ => rfl)).2.1 1 (by decide)


theorem syncTokLoop_spec (env : Env) (now : Int) (c1 c2 : Nat) (st : WState)
    (hok : ∀ n, env.ok n = true) (i : Nat) :
    ∀ ts : List OtpToken,
    syncTokLoop env now c1 c2 i ts st =
      match (ts.flatMap
          (fun t => [(t, (i : Int)), (t, -(i : Int))])).find?
          (sPred env now c1 c2 st) with
      | Option.some td =>
        (true, (validate env td.1 now td.2 c1 (Option.some c2) st).st)
      | Option.none => (false, st) := by
  intro ts
  induction ts with
  | nil => rfl
  | cons t ts ih =>
    rw [List.flatMap_cons]
    simp only [List.cons_append, List.nil_append]
    unfold syncTokLoop
    dsimp only
    cases hr1 : sPred env now c1 c2 st (t, (i : Int)) with
    | true =>
      rw [List.find?_cons_of_pos _ hr1]
      have hr1' : (validate env t now (i : Int) c1 (Option.some c2) st).ok =
          true := hr1
      simp [hr1']
    | false =>
      have hr1' : (validate env t now (i : Int) c1 (Option.some c2) st).ok =
          false := hr1
      have hid := validate_fail_id env t now (i : Int) c1 (Option.some c2) st
        hok hr1'
      rw [List.find?_cons_of_neg _ (by rw [hr1]; simp), hid]
      dsimp only
      rw [if_neg (by simp)]
      cases hr2 : sPred env now c1 c2 st (t, -(i : Int)) with
      | true =>
        rw [List.find?_cons_of_pos _ hr2]
        have hr2' : (validate env t now (-(i : Int)) c1 (Option.some c2)
            st).ok = true := hr2
        simp [hr2']
      | false =>
        have hr2' : (validate env t now (-(i : Int)) c1 (Option.some c2)
            st).ok = false := hr2
        have hid2 := validate_fail_id env t now (-(i : Int)) c1
          (Option.some c2) st hok hr2'
        rw [List.find?_cons_of_neg _ (by rw [hr2]; simp), hid2]
        dsimp only
        rw [if_neg (by simp)]
        exact ih

theorem syncStepLoop_spec (env : Env) (now : Int) (c1 c2 : Nat)
    (toks : List OtpToken) (st : WState) (hok : ∀ n, env.ok n = true) :
    ∀ (fuel i : Nat),
    syncStepLoop env now c1 c2 toks fuel i st =
      match ((List.range' i fuel).flatMap
          (fun k => toks.flatMap
            (fun t => [(t, (k : Int)), (t, -(k : Int))]))).find?
          (sPred env now c1 c2 st) with
      | Option.some td =>
        (true, (validate env td.1 now td.2 c1 (Option.some c2) st).st)
      | Option.none => (false, st) := by
  intro fuel
  induction fuel with
  | zero => intro i; rfl
  | succ fuel ih =>
    intro i
    rw [List.range'_succ, List.flatMap_cons, List.find?_append]
    unfold syncStepLoop
    dsimp only
    rw [syncTokLoop_spec env now c1 c2 st hok i toks]
    cases hin : (toks.flatMap
        (fun t => [(t, (i : Int)), (t, -(i : Int))])).find?
        (sPred env now c1 c2 st) with
    | some td =>
      dsimp only [Option.or]
      rw [if_pos rfl]
    | none =>
      dsimp only [Option.or]
      rw [if_neg (by simp), ih (i + 1)]


/-- Claim C7: with all store writes succeeding, two-code synchronization over
an ordered candidate token list searches breadth-first across tokens per
drift radius — radii `0 .. steps` outer, tokens in the given order inner,
`+i` then `−i` per token — and returns at the first successful candidate
over that enumeration; on success the final durable state is that of the one
matched token's validation, every entry other than the matched token's is
untouched, and the matched token belongs to the candidate list; if the whole
sweep fails nothing changes. -/
theorem sync_breadth_first_order (env : Env) (toks : List OtpToken)
    (now : Int) (steps : Nat) (c1 c2 : Nat) (st : WState)
    (hok : ∀ n, env.ok n = true) :
    ((otptoken_sync env toks now steps c1 c2 st).1 =
      ((syncEnum steps toks).find? (sPred env now c1 c2 st)).isSome) ∧
    (∀ td, (syncEnum steps toks).find? (sPred env now c1 c2 st) =
        Option.some td →
      td.1 ∈ toks ∧
      (otptoken_sync env toks now steps c1 c2 st).2 =
        (validate env td.1 now td.2 c1 (Option.some c2) st).st ∧
      (∀ x, x ≠ td.1.sdn →
        (otptoken_sync env toks now steps c1 c2 st).2.store x =
          st.store x)) ∧
    ((syncEnum steps toks).find? (sPred env now c1 c2 st) = Option.none →
      otptoken_sync env toks now steps c1 c2 st = (false, st)) := by
  have key := syncStepLoop_spec env now c1 c2 toks st hok (steps + 1) 0
  have henum : syncEnum steps toks =
      (List.range' 0 (steps + 1)).flatMap
        (fun k => toks.flatMap
          (fun t => [(t, (k : Int)), (t, -(k : Int))])) := by
    unfold syncEnum
    rw [List.range_eq_range']
  unfold otptoken_sync
  rw [key, ← henum]
  cases hf : (syncEnum steps toks).find? (sPred env now c1 c2 st) with
  | none =>
    refine ⟨rfl, ?_, ?_⟩
    · intro td htd
      cases htd
    · intro _
      rfl
  | some td =>
    have hmem : td ∈ syncEnum steps toks := List.mem_of_find?_eq_some hf
    have hfst : td.1 ∈ toks := by
      rw [henum] at hmem
      rw [List.mem_flatMap] at hmem
      obtain ⟨k, _, hk⟩ := hmem
      rw [List.mem_flatMap] at hk
      obtain ⟨t, ht, hp⟩ := hk
      rcases List.mem_cons.mp hp with h1 | h2
      · rw [h1]
        exact ht
      · rcases List.mem_cons.mp h2 with h3 | h4
        · rw [h3]
          exact ht
        · cases h4
    refine ⟨rfl, ?_, ?_⟩
    · intro td2 htd2
      have h : td = td2 := Option.some.inj htd2
      subst h
      refine ⟨hfst, rfl, ?_⟩
      intro x hx
      exact validate_store_other env td.1 now td.2 c1 (Option.some c2) st x hx
    · intro hcon
      cases hcon

/-- Witness for C7: with two candidate tokens where only the second (TOTP)
token matches at radius 0, the synchronizer commits exactly that token's
validation state. -/
theorem sync_breadth_first_order_wit :
    (otptoken_sync envAll [tokHot, tokTot] 600 0 141 148 st0).2 =
      (validate envAll tokTot 600 0 141 (Option.some 148) st0).st :=
  (((sync_breadth_first_order envAll [tokHot, tokTot] 600 0 141 148 st0
    (fun _ => rfl)).2.1 (tokTot, 0) (by rfl)).2).1

end LibOtp
